import Mathlib

/-!
Verification development for the bio-did-seq repository.

The repository's two core subsystems are shallowly embedded here:
* the capability-token service (`src/services/ucan_service.rs`), and
* the identity-document manager (`src/services/did_service.rs`,
  `src/models/did.rs`).

Modelling conventions:
* Rust `i64` user ids and unix timestamps become `Int` (the source formats
  timestamps to whole seconds before storing them, so second-granularity
  integers are faithful).
* `uuid::Uuid::new_v4()` is modelled as a fresh-identifier supply: each state
  carries a counter `nextUuid`, and the `n`-th draw is the string `uuid n`.
  Distinct draws yield distinct strings, which is the guarantee the code
  relies on.
* The MySQL tables become in-memory lists of rows; a `SELECT ... first`
  becomes `List.find?`, an `UPDATE ... WHERE` becomes a `List.map` guarded by
  the `WHERE` predicate, an `INSERT` appends a row.  Connection-acquisition
  failures (environment errors) are not modelled.
* Rust's `str::split(':')` is re-implemented structurally (`rustSplit`) so
  that every definition evaluates by `decide`/`rfl`.
-/

namespace BioDidSeq

/-- Accumulator-based splitter mirroring Rust's `str::split(c)`: every
occurrence of the separator starts a new (possibly empty) segment. -/
def splitCharAux (c : Char) : List Char → List Char → List (List Char)
  | [], acc => [acc.reverse]
  | x :: xs, acc =>
    if x = c then acc.reverse :: splitCharAux c xs []
    else splitCharAux c xs (x :: acc)

/-- Rust's `s.split(c).collect::<Vec<_>>()`. -/
def rustSplit (c : Char) (s : String) : List String :=
  (splitCharAux c s.data []).map String.mk

/-- The fresh-identifier supply standing in for `uuid::Uuid::new_v4()`:
the `n`-th draw.  Draws are pairwise distinct and never contain a colon. -/
def uuid (n : Nat) : String := String.mk (List.replicate (n + 1) 'u')

/-- Error enumeration from `src/errors.rs` (variants used by the two core
services; payloads are the formatted message strings). -/
inductive AppError where
  | DatabaseError (msg : String)
  | IPFSError (msg : String)
  | AuthError (msg : String)
  | AuthorizationError (msg : String)
  | NotFound (msg : String)
  | ValidationError (msg : String)
  | ServiceError (msg : String)
  | SerializationError
  | DeserializationError
deriving DecidableEq

/-- `BioResource` from `src/services/ucan_service.rs`. -/
inductive BioResource where
  | Dataset (id : String)
  | DID (id : String)
  | File (id : String)
  | Metadata (id : String)
  | UserProfile (id : String)
deriving DecidableEq

/-- `BioAction` from `src/services/ucan_service.rs`. -/
inductive BioAction where
  | Create
  | Read
  | Update
  | Delete
  | Upload
  | Download
  | Process
  | Publish
deriving DecidableEq

/-- `BioCapability` from `src/services/ucan_service.rs`. -/
structure BioCapability where
  resource : BioResource
  action : BioAction
deriving DecidableEq

/-- The resource-to-string conversion inside `issue_token`
(`ucan_service.rs` lines 114-120). -/
def bioResourceString : BioResource → String
  | .Dataset id => "bio://dataset/" ++ id
  | .DID id => "bio://did/" ++ id
  | .File id => "bio://file/" ++ id
  | .Metadata id => "bio://metadata/" ++ id
  | .UserProfile id => "bio://user/" ++ id

/-- The action-to-string conversion inside `issue_token`
(`ucan_service.rs` lines 122-131). -/
def bioActionString : BioAction → String
  | .Create => "create"
  | .Read => "read"
  | .Update => "update"
  | .Delete => "delete"
  | .Upload => "upload"
  | .Download => "download"
  | .Process => "process"
  | .Publish => "publish"

/-- The `_ucan_capabilities` conversion computed (and then discarded) by
`issue_token` (`ucan_service.rs` lines 112-135). -/
def ucanCapabilityStrings (caps : List BioCapability) : List (String × String) :=
  caps.map (fun cap => (bioResourceString cap.resource, bioActionString cap.action))

/-- The hard-coded service DID used as issuer (`ucan_service.rs` line 109). -/
def serviceDid : String := "did:key:z6MkhaXgBZDvotDkL5257faiztiGiC2QtKLGpbnnEGta2doK"

/-- A row of the `ucan_tokens` table (`src/database/schema.rs` lines 71-85). -/
structure UcanTokenRow where
  id : String
  user_id : Int
  token : String
  audience_did : String
  issued_at : Int
  expires_at : Int
  revoked : Bool
  revoked_at : Option Int
  delegated_from : Option String
deriving DecidableEq

/-- The durable state seen by `UcanService`: the `ucan_tokens` table plus the
fresh-uuid supply counter. -/
structure UcanDb where
  rows : List UcanTokenRow
  nextUuid : Nat
deriving DecidableEq

/-- `UcanService::issue_token` (`ucan_service.rs` lines 104-175).  Two
distinct uuids are drawn: the first is embedded in the token string, the
second (shadowing the first binding, as in the source) becomes the row's
primary key.  The converted capability list is computed but unused, exactly
as in the source. -/
def issue_token (db : UcanDb) (user_id : Int) (audience_did : String)
    (capabilities : List BioCapability) (now : Int) : String × UcanDb :=
  let expiry := now + 24 * 3600
  let _ucan_capabilities := ucanCapabilityStrings capabilities
  let token_id := uuid db.nextUuid
  let token := "ucan:demo:" ++ token_id ++ ":" ++ serviceDid ++ ":" ++ audience_did
    ++ ":" ++ toString now
  let token_id2 := uuid (db.nextUuid + 1)
  let row : UcanTokenRow :=
    { id := token_id2, user_id := user_id, token := token,
      audience_did := audience_did, issued_at := now, expires_at := expiry,
      revoked := false, revoked_at := none, delegated_from := none }
  (token, { rows := db.rows ++ [row], nextUuid := db.nextUuid + 2 })

/-- `UcanService::verify_token` (`ucan_service.rs` lines 178-193): checks the
colon-split format (at least 6 parts, prefixes `ucan` and `demo`), errors
with `AuthError` otherwise, and returns the fixed dummy capability list. -/
def verify_token (token : String) : Except AppError (List (String × String)) :=
  let parts := rustSplit ':' token
  if parts.length < 6 ∨ parts.getD 0 "" ≠ "ucan" ∨ parts.getD 1 "" ≠ "demo" then
    .error (.AuthError "Invalid UCAN token format")
  else
    .ok [("bio://dataset/*", "read"), ("bio://did/*", "read")]

/-- `UcanService::has_capability` (`ucan_service.rs` lines 196-205). -/
def has_capability (token resource action : String) : Except AppError Bool :=
  match verify_token token with
  | .error e => .error e
  | .ok capabilities =>
    .ok (capabilities.any (fun p => p.1 == resource && p.2 == action))

/-- `UcanService::delegate_capability` (`ucan_service.rs` lines 208-259).
The `issuer` written to `delegated_from` is `from_token.split(':').nth(3)`
with default `"unknown"`; the passed capability list is unused, as in the
source. -/
def delegate_capability (db : UcanDb) (user_id : Int) (from_token to_did : String)
    (_capabilities : List BioCapability) (now : Int) :
    Except AppError (String × UcanDb) :=
  let expiry := now + 24 * 3600
  match verify_token from_token with
  | .error e => .error e
  | .ok _ =>
    let token_id := uuid db.nextUuid
    let token := "ucan:demo:" ++ token_id ++ ":" ++ "delegated" ++ ":" ++ to_did
      ++ ":" ++ toString now
    let issuer := (rustSplit ':' from_token).getD 3 "unknown"
    let token_id2 := uuid (db.nextUuid + 1)
    let row : UcanTokenRow :=
      { id := token_id2, user_id := user_id, token := token,
        audience_did := to_did, issued_at := now, expires_at := expiry,
        revoked := false, revoked_at := none, delegated_from := some issuer }
    .ok (token, { rows := db.rows ++ [row], nextUuid := db.nextUuid + 2 })

/-- `UcanService::revoke_token` (`ucan_service.rs` lines 262-303): ownership
check by row id and user id, then `UPDATE ... SET revoked = TRUE,
revoked_at = now WHERE id = token_id`. -/
def revoke_token (db : UcanDb) (user_id : Int) (token_id : String) (now : Int) :
    Except AppError UcanDb :=
  match db.rows.find? (fun r => r.id == token_id && r.user_id == user_id) with
  | none => .error (.NotFound "Token not found or not owned by user")
  | some _ =>
    .ok { db with
      rows := db.rows.map (fun r =>
        if r.id == token_id then { r with revoked := true, revoked_at := some now }
        else r) }

/-- `UcanService::is_token_revoked` (`ucan_service.rs` lines 306-332): the
token must colon-split into at least 3 parts, then the lookup is by the full
token string (`WHERE token = :token`), with `revoked.unwrap_or(0) == 1`. -/
def is_token_revoked (db : UcanDb) (token : String) : Except AppError Bool :=
  match (rustSplit ':' token)[2]? with
  | none => .error (.AuthError "Invalid token format")
  | some _ =>
    .ok (((db.rows.find? (fun r => r.token == token)).map
      (fun r => r.revoked)).getD false)

/-! ## Identity-document data model (`src/models/did.rs`)

`DateTime<Utc>` fields become `Int` unix seconds, `u64` becomes `Nat`, and
JSON values inside `custom_fields` are abstracted to strings. -/

/-- `KeyJwk` from `src/models/did.rs`. -/
structure KeyJwk where
  kty : String
  crv : String
  x : String
  y : Option String
  n : Option String
  e : Option String
deriving DecidableEq

/-- `VerificationMethod` from `src/models/did.rs`. -/
structure VerificationMethod where
  id : String
  controller : String
  vm_type : String
  public_key_multibase : Option String
  public_key_jwk : Option KeyJwk
deriving DecidableEq

/-- `Service` from `src/models/did.rs`. -/
structure Service where
  id : String
  service_type : String
  service_endpoint : String
  description : Option String
deriving DecidableEq

/-- `Researcher` from `src/models/did.rs`. -/
structure Researcher where
  name : String
  orcid : Option String
  role : String
  affiliation : Option String
  email : Option String
deriving DecidableEq

/-- `RelatedIdentifier` from `src/models/did.rs`. -/
structure RelatedIdentifier where
  identifier : String
  identifier_type : String
  relation_type : String
deriving DecidableEq

/-- `FundingInfo` from `src/models/did.rs`. -/
structure FundingInfo where
  funder_name : String
  grant_id : Option String
  award_title : Option String
deriving DecidableEq

/-- `BiometadataExtension` from `src/models/did.rs`. -/
structure BiometadataExtension where
  title : String
  description : Option String
  researchers : List Researcher
  keywords : List String
  data_type : String
  license : String
  doi : Option String
  handle : Option String
  dataverse_link : Option String
  related_identifiers : Option (List RelatedIdentifier)
  dataset_size : Option Nat
  funding_info : Option (List FundingInfo)
  creation_date : Int
  last_modified : Int
  custom_fields : Option (List (String × String))
deriving DecidableEq

/-- `DIDDocument` from `src/models/did.rs`. -/
structure DIDDocument where
  context : List String
  id : String
  also_known_as : Option (List String)
  controller : List String
  verification_method : List VerificationMethod
  authentication : List String
  assertion_method : Option (List String)
  service : List Service
  created : Int
  updated : Int
  metadata : Option BiometadataExtension
deriving DecidableEq

/-- `DIDCreationRequest` from `src/models/did.rs`. -/
structure DIDCreationRequest where
  controller : String
  public_key : String
  service_endpoints : List Service
  metadata : BiometadataExtension
deriving DecidableEq

/-- `DIDUpdateRequest` from `src/models/did.rs`. -/
structure DIDUpdateRequest where
  controller : Option String
  add_verification_method : Option (List VerificationMethod)
  remove_verification_method : Option (List String)
  add_service : Option (List Service)
  remove_service : Option (List String)
  update_metadata : Option BiometadataExtension
deriving DecidableEq

/-- `generate_did` (`src/models/did.rs` lines 134-137); the uuid draw is the
`n`-th element of the fresh supply. -/
def generate_did (n : Nat) : String := "did:bio:" ++ uuid n

/-- `create_default_did_document` (`src/models/did.rs` lines 140-177). -/
def create_default_did_document (did controller public_key : String)
    (metadata : BiometadataExtension) (now : Int) : DIDDocument :=
  let verification_method_id := did ++ "#keys-1"
  let vm : VerificationMethod :=
    { id := verification_method_id, controller := did,
      vm_type := "Ed25519VerificationKey2020",
      public_key_multibase := some public_key, public_key_jwk := none }
  let storage : Service :=
    { id := did ++ "#storage", service_type := "IPFSStorage",
      service_endpoint := "https://ipfs.bio-did-seq.example/api",
      description := some "IPFS storage for biological research data" }
  { context := ["https://www.w3.org/ns/did/v1",
      "https://w3id.org/security/suites/ed25519-2020/v1",
      "https://w3id.org/biodata/v1"],
    id := did,
    also_known_as := none,
    controller := [controller],
    verification_method := [vm],
    authentication := [verification_method_id],
    assertion_method := none,
    service := [storage],
    created := now,
    updated := now,
    metadata := some metadata }

/-! ## Identity-document manager (`src/services/did_service.rs`)

The IPFS content store is modelled as an append-only list of stored
documents; a content identifier is the index at which a document was
appended (content addresses are opaque handles, and the serde-JSON
serialize/deserialize round trip is abstracted away: `add_content` stores
the document value, `get_content` + `serde_json::from_str` retrieve it). -/

/-- A row of the `did_documents` table (`src/database/schema.rs` lines 54-66);
`cid` is an index into the content store. -/
structure DidRow where
  did : String
  cid : Nat
  user_id : Int
  dataverse_doi : Option String
  created_at : Int
  updated_at : Int
deriving DecidableEq

/-- The durable state seen by `DIDService`: the `did_documents` table, the
IPFS content store, and the fresh-uuid supply counter. -/
structure DidState where
  rows : List DidRow
  store : List DIDDocument
  nextUuid : Nat
deriving DecidableEq

/-- `DIDService::create_did` (`did_service.rs` lines 25-76).  Note that the
request's `service_endpoints` are not passed to the document builder, exactly
as in the source. -/
def create_did (s : DidState) (request : DIDCreationRequest) (user_id : Int)
    (now : Int) : DIDDocument × DidState :=
  let did := generate_did s.nextUuid
  let did_document :=
    create_default_did_document did request.controller request.public_key
      request.metadata now
  let cid := s.store.length
  let row : DidRow :=
    { did := did, cid := cid, user_id := user_id, dataverse_doi := none,
      created_at := now, updated_at := now }
  (did_document,
    { rows := s.rows ++ [row], store := s.store ++ [did_document],
      nextUuid := s.nextUuid + 1 })

/-- `DIDService::get_did` (`did_service.rs` lines 79-110). -/
def get_did (s : DidState) (did_id : String) : Except AppError DIDDocument :=
  match s.rows.find? (fun r => r.did == did_id) with
  | none => .error (.NotFound "DID not found")
  | some r =>
    match s.store[r.cid]? with
    | none => .error (.IPFSError "content not found")
    | some did_document => .ok did_document

/-- The patch application inside `DIDService::update_did`
(`did_service.rs` lines 139-170). -/
def applyUpdate (doc : DIDDocument) (request : DIDUpdateRequest) (now : Int) :
    DIDDocument :=
  let doc := match request.controller with
    | some controller => { doc with controller := [controller] }
    | none => doc
  let doc := match request.add_verification_method with
    | some methods =>
      { doc with verification_method := doc.verification_method ++ methods }
    | none => doc
  let doc := match request.remove_verification_method with
    | some method_ids =>
      { doc with verification_method :=
          doc.verification_method.filter (fun m => !(method_ids.contains m.id)) }
    | none => doc
  let doc := match request.add_service with
    | some services => { doc with service := doc.service ++ services }
    | none => doc
  let doc := match request.remove_service with
    | some service_ids =>
      { doc with service :=
          doc.service.filter (fun sv => !(service_ids.contains sv.id)) }
    | none => doc
  let doc := match request.update_metadata with
    | some metadata => { doc with metadata := some metadata }
    | none => doc
  { doc with updated := now }

/-- `DIDService::update_did` (`did_service.rs` lines 113-209).  Returns the
result together with the resulting state; the authorization check
(`SELECT 1 ... WHERE did = :did AND user_id = :user_id`) runs before any
write, so a failure leaves the state untouched. -/
def update_did (s : DidState) (did_id : String) (request : DIDUpdateRequest)
    (user_id : Int) (now : Int) : Except AppError DIDDocument × DidState :=
  match s.rows.find? (fun r => r.did == did_id && r.user_id == user_id) with
  | none => (.error (.AuthorizationError "Not authorized to update this DID"), s)
  | some _ =>
    match get_did s did_id with
    | .error e => (.error e, s)
    | .ok doc0 =>
      let did_document := applyUpdate doc0 request now
      let cid := s.store.length
      (.ok did_document,
        { rows := s.rows.map (fun r =>
            if r.did == did_id then { r with cid := cid, updated_at := now }
            else r),
          store := s.store ++ [did_document],
          nextUuid := s.nextUuid })

/-! ## Spec-modelled capability token service

The HTTP layer (`src/routes/auth.rs` line 110) calls
`ucan_service.validate_token`, and line 89 calls a four-argument
`issue_token`; neither exists in the `UcanService` implementation under
`src/` — only their caller does.  The definitions in this namespace are
therefore modelled from the specification (§4.2), which describes these
missing operations: `validate` decodes the colon-delimited token, consults
the stored revocation flag, then compares the *stored* `expires_at` with the
current time; `revoke` decodes the token to its id, checks ownership, and
idempotently sets the revocation flag; `issue`/`delegate` mint and persist
rows keyed by the embedded token id. -/

namespace UcanSpec

/-- A capability-token row of the Identity Store as the spec describes it
(§3 `CapabilityToken`, §6 token table): keyed by the token id that the token
string embeds. -/
structure SpecRow where
  token_id : String
  owner : Int
  issuer : String
  audience : String
  capabilities : List (String × String)
  issued_at : Int
  expires_at : Int
  revoked : Bool
  revoked_at : Option Int
  delegated_from : Option String
deriving DecidableEq

/-- State of the spec-modelled token service: the token rows plus the
fresh-uuid supply counter. -/
structure SpecState where
  rows : List SpecRow
  fresh : Nat
deriving DecidableEq

/-- Modelled from the spec: the token-string decoder shared by `validate`,
`revoke` and `delegate` (missing `UcanService::validate_token` and friends).
Per §9 the format is the source's unsigned colon-delimited one, so decoding
succeeds exactly when the string splits into at least 6 parts with prefixes
`ucan` and `demo`; the token id is the third part. -/
def decodeTokenId (token : String) : Option String :=
  let parts := rustSplit ':' token
  if parts.length < 6 ∨ parts.getD 0 "" ≠ "ucan" ∨ parts.getD 1 "" ≠ "demo" then
    none
  else
    some (parts.getD 2 "")

/-- The discriminated validation result of §4.2: `Valid{issuer, audience,
capabilities, expires_at}` or `Invalid{reason}`. -/
inductive ValidationResult where
  | valid (issuer audience : String) (capabilities : List (String × String))
      (expires_at : Int)
  | invalid (reason : String)
deriving DecidableEq

/-- Modelled from the spec: `validate(token_string)` (§4.2), the
`UcanService::validate_token` called from `src/routes/auth.rs` but absent
from `src/`.  Decoding failure yields `Invalid`; then revocation state is
looked up by token id (`Invalid("revoked")` if revoked); then the *stored*
`expires_at` — not the timestamp embedded in the token — is compared with
the current time (`Invalid("expired")` if past); otherwise `Valid`. -/
def validate_token (s : SpecState) (token : String) (now : Int) :
    ValidationResult :=
  match decodeTokenId token with
  | none => .invalid "malformed token"
  | some tid =>
    match s.rows.find? (fun r => r.token_id == tid) with
    | none => .invalid "unknown token"
    | some r =>
      if r.revoked then .invalid "revoked"
      else if r.expires_at < now then .invalid "expired"
      else .valid r.issuer r.audience r.capabilities r.expires_at

/-- Error kinds of the spec's failure taxonomy (§4.2, §7) for the
spec-modelled operations. -/
inductive SpecErr where
  | DecodeFailure
  | NotFound
deriving DecidableEq

/-- Modelled from the spec: `revoke(requester_user_id, token_string)` (§4.2),
absent from `src/` (its caller is `src/routes/auth.rs` line 149, which passes
the full token string).  Decodes the token to obtain its id, fails with
`NotFound` if no row with that id is owned by the requester, otherwise sets
`revoked = true` and `revoked_at = now`; the ownership check re-runs on every
call and revoking an already-revoked token is not an error. -/
def revoke (s : SpecState) (requester : Int) (token : String) (now : Int) :
    Except SpecErr SpecState :=
  match decodeTokenId token with
  | none => .error .DecodeFailure
  | some tid =>
    match s.rows.find? (fun r => r.token_id == tid && r.owner == requester) with
    | none => .error .NotFound
    | some _ =>
      .ok { s with rows := s.rows.map (fun r =>
        if r.token_id == tid then
          { r with revoked := true, revoked_at := some now }
        else r) }

/-- Modelled from the spec: `issue(issuer_user_id, audience_id, capabilities,
requested_ttl_seconds?)` (§4.2), the four-argument `issue_token` called from
`src/routes/auth.rs` line 89 but absent from `src/`.  `expires_at` is
`now + requested_ttl_seconds` if provided, else `now + 24h`; the minted token
embeds a fresh token id, the service issuer identity, the audience and the
issuance timestamp, and the row is persisted under the embedded id. -/
def issue (s : SpecState) (user_id : Int) (audience : String)
    (capabilities : List (String × String)) (ttl : Option Int) (now : Int) :
    String × SpecState :=
  let expires := now + ttl.getD 86400
  let tid := uuid s.fresh
  let token := "ucan:demo:" ++ tid ++ ":" ++ serviceDid ++ ":" ++ audience
    ++ ":" ++ toString now
  let row : SpecRow :=
    { token_id := tid, owner := user_id, issuer := serviceDid,
      audience := audience, capabilities := capabilities, issued_at := now,
      expires_at := expires, revoked := false, revoked_at := none,
      delegated_from := none }
  (token, { rows := s.rows ++ [row], fresh := s.fresh + 1 })

/-- Modelled from the spec: `delegate(delegator_user_id, parent_token,
audience_id, capabilities)` (§4.2), absent from `src/`.  The parent token
must decode (its current validity is *not* re-checked — documented gap,
§9); the new token is minted as in `issue`, with `delegated_from` recording
the parent row's issuer identity. -/
def delegate (s : SpecState) (delegator : Int) (parent_token audience : String)
    (capabilities : List (String × String)) (now : Int) :
    Except SpecErr (String × SpecState) :=
  match decodeTokenId parent_token with
  | none => .error .DecodeFailure
  | some ptid =>
    let parent_issuer := (s.rows.find? (fun r => r.token_id == ptid)).map
      (fun r => r.issuer)
    let expires := now + 86400
    let tid := uuid s.fresh
    let token := "ucan:demo:" ++ tid ++ ":" ++ serviceDid ++ ":" ++ audience
      ++ ":" ++ toString now
    let row : SpecRow :=
      { token_id := tid, owner := delegator, issuer := serviceDid,
        audience := audience, capabilities := capabilities, issued_at := now,
        expires_at := expires, revoked := false, revoked_at := none,
        delegated_from := parent_issuer }
    .ok (token, { rows := s.rows ++ [row], fresh := s.fresh + 1 })

/-- One step of the spec-modelled service: any single `issue`, `delegate` or
`revoke` call that succeeds. -/
inductive Step : SpecState → SpecState → Prop where
  | issue (s : SpecState) (user_id : Int) (audience : String)
      (capabilities : List (String × String)) (ttl : Option Int) (now : Int) :
      Step s (issue s user_id audience capabilities ttl now).2
  | delegate (s : SpecState) (delegator : Int) (parent_token audience : String)
      (capabilities : List (String × String)) (now : Int) (token : String)
      (s' : SpecState)
      (h : delegate s delegator parent_token audience capabilities now
        = .ok (token, s')) : Step s s'
  | revoke (s : SpecState) (requester : Int) (token : String) (now : Int)
      (s' : SpecState) (h : revoke s requester token now = .ok s') : Step s s'

/-- Reachability through any sequence of service operations. -/
def Reach (s s' : SpecState) : Prop := Relation.ReflTransGen Step s s'

/-- Well-formedness: every row's token id was drawn from the fresh supply
below the current counter.  Holds in every state built by the service's own
operations. -/
def WF (s : SpecState) : Prop :=
  ∀ r ∈ s.rows, ∃ k, k < s.fresh ∧ r.token_id = uuid k

/-- The facts that persist about a token id once it has been revoked: the id
was drawn from the supply below the counter, some row with this id belongs to
the given owner, and every row with this id carries `revoked = true`. -/
def RevokedFacts (s : SpecState) (tid : String) (owner : Int) : Prop :=
  (∃ k, k < s.fresh ∧ tid = uuid k)
  ∧ (∃ r ∈ s.rows, r.token_id = tid ∧ r.owner = owner)
  ∧ (∀ r ∈ s.rows, r.token_id = tid → r.revoked = true)

/-- Example state: one freshly issued, unrevoked token row. -/
def specRow0 : SpecRow :=
  { token_id := uuid 0, owner := 1, issuer := serviceDid,
    audience := "did:bio:alice", capabilities := [("bio://dataset/*", "read")],
    issued_at := 0, expires_at := 86400, revoked := false, revoked_at := none,
    delegated_from := none }

/-- Example state holding `specRow0`. -/
def specS0 : SpecState := { rows := [specRow0], fresh := 1 }

/-- A token string that decodes to `specRow0`'s token id (`uuid 0 = "u"`). -/
def specTok : String := "ucan:demo:u:issuer:alice:0"

/-- `specS0` after revoking `specRow0` at time 5. -/
def specS1 : SpecState :=
  { rows := [{ specRow0 with revoked := true, revoked_at := some 5 }],
    fresh := 1 }

/-- Example row that is both revoked and past expiry at time 100. -/
def specRowRevokedExpired : SpecRow :=
  { specRow0 with expires_at := 50, revoked := true, revoked_at := some 10 }

/-- Example state holding `specRowRevokedExpired`. -/
def specSRevokedExpired : SpecState :=
  { rows := [specRowRevokedExpired], fresh := 1 }

/-- Example row that is unrevoked but past expiry at time 100. -/
def specRowExpired : SpecRow := { specRow0 with expires_at := 50 }

/-- Example state holding `specRowExpired`. -/
def specSExpired : SpecState := { rows := [specRowExpired], fresh := 1 }

end UcanSpec

/-! ## Example states for concrete evaluations -/

/-- The empty `ucan_tokens` database. -/
def db0 : UcanDb := { rows := [], nextUuid := 0 }

/-- The state after one `issue_token` call against `db0`. -/
def exDb1 : UcanDb := (issue_token db0 1 "did:bio:alice" [] 0).2

/-- The token string returned by that `issue_token` call; its embedded issuer
is `serviceDid`, which itself contains colons. -/
def exParent : String := (issue_token db0 1 "did:bio:alice" [] 0).1

/-- Delegating from `exParent` at time 5. -/
def exDelegation : Except AppError (String × UcanDb) :=
  delegate_capability exDb1 1 exParent "did:bio:bob" [] 5

/-- A delegation from a well-formed token string against the empty database
(used to evaluate the delegation path concretely). -/
def exDelegation2 : Except AppError (String × UcanDb) :=
  delegate_capability db0 1 "ucan:demo:a:b:c:0" "did:bio:bob" [] 0

/-- The database produced by `exDelegation2`. -/
def exDelegation2Db : UcanDb :=
  match exDelegation2 with
  | .ok p => p.2
  | .error _ => db0

/-- Example metadata block for identity-document scenarios. -/
def exMetadata : BiometadataExtension :=
  { title := "sample", description := none, researchers := [], keywords := [],
    data_type := "genomic", license := "CC0", doi := none, handle := none,
    dataverse_link := none, related_identifiers := none, dataset_size := none,
    funding_info := none, creation_date := 0, last_modified := 0,
    custom_fields := none }

/-- Example stored identity document owned by user 1. -/
def exDoc : DIDDocument :=
  create_default_did_document "did:bio:u" "did:bio:owner" "zKey" exMetadata 0

/-- Example pointer row owned by user 1. -/
def exDidRow : DidRow :=
  { did := "did:bio:u", cid := 0, user_id := 1, dataverse_doi := none,
    created_at := 0, updated_at := 0 }

/-- Example identity-store state: one pointer row owned by user 1. -/
def exDidState : DidState :=
  { rows := [exDidRow], store := [exDoc], nextUuid := 1 }

/-- An empty update request. -/
def exUpdateReq : DIDUpdateRequest :=
  { controller := none, add_verification_method := none,
    remove_verification_method := none, add_service := none,
    remove_service := none, update_metadata := none }

/-! ## Helper lemmas -/

theorem uuid_injective {m n : Nat} (h : uuid m = uuid n) : m = n := by
  have hd : List.replicate (m + 1) 'u' = List.replicate (n + 1) 'u' :=
    congrArg String.data h
  have hl := congrArg List.length hd
  simpa using hl

theorem colon_not_mem_uuid (n : Nat) : ':' ∉ (uuid n).data := by
  intro hmem
  have := List.eq_of_mem_replicate hmem
  simp at this

theorem uuid_ne_succ (n : Nat) : uuid n ≠ uuid (n + 1) := by
  intro h
  have := uuid_injective h
  omega

theorem splitCharAux_append (c : Char) {l₁ : List Char} (h : c ∉ l₁)
    (l₂ acc : List Char) :
    splitCharAux c (l₁ ++ c :: l₂) acc
      = (acc.reverse ++ l₁) :: splitCharAux c l₂ [] := by
  induction l₁ generalizing acc with
  | nil => simp [splitCharAux]
  | cons x xs ih =>
    have hx : x ≠ c := fun e => h (e ▸ List.mem_cons_self x xs)
    have hxs : c ∉ xs := fun e => h (List.mem_cons_of_mem x e)
    simp only [List.cons_append, splitCharAux, if_neg hx, List.append_eq]
    rw [ih hxs]
    simp

theorem splitCharAux_of_not_mem (c : Char) {l : List Char} (h : c ∉ l)
    (acc : List Char) : splitCharAux c l acc = [acc.reverse ++ l] := by
  induction l generalizing acc with
  | nil => simp [splitCharAux]
  | cons x xs ih =>
    have hx : x ≠ c := fun e => h (e ▸ List.mem_cons_self x xs)
    have hxs : c ∉ xs := fun e => h (List.mem_cons_of_mem x e)
    simp only [splitCharAux, if_neg hx, ih hxs]
    simp

theorem splitString_cons (c : Char) {l₁ : List Char} (h : c ∉ l₁)
    (l₂ : List Char) :
    (splitCharAux c (l₁ ++ c :: l₂) []).map String.mk
      = String.mk l₁ :: (splitCharAux c l₂ []).map String.mk := by
  rw [splitCharAux_append c h]
  simp

theorem splitString_last (c : Char) {l : List Char} (h : c ∉ l) :
    (splitCharAux c l []).map String.mk = [String.mk l] := by
  rw [splitCharAux_of_not_mem c h]
  simp

/-- Splitting a string of the form `ucan:demo:<tid>:<rest>` peels off the
three leading segments when the embedded id contains no colon. -/
theorem rustSplit_token_prefix (tid rest : String) (h : ':' ∉ tid.data) :
    rustSplit ':' ("ucan:demo:" ++ tid ++ ":" ++ rest)
      = "ucan" :: "demo" :: tid :: rustSplit ':' rest := by
  have hdata : ("ucan:demo:" ++ tid ++ ":" ++ rest).data
      = "ucan".data ++ ':' :: ("demo".data ++ ':' :: (tid.data ++ ':' :: rest.data)) := by
    have h1 : ("ucan:demo:" : String).data
        = "ucan".data ++ ':' :: "demo".data ++ [':'] := rfl
    have h2 : (":" : String).data = [':'] := rfl
    simp [String.data_append, h1, h2]
  show (splitCharAux ':' ("ucan:demo:" ++ tid ++ ":" ++ rest).data []).map String.mk = _
  rw [hdata]
  rw [splitString_cons ':' (by decide)]
  rw [splitString_cons ':' (by decide)]
  rw [splitString_cons ':' h]
  rfl

/-- Splitting the tail `<serviceDid>:<audience>:<timestamp>` of an issued
token yields the issuer's three segments, the audience and the timestamp,
provided the latter two contain no colon. -/
theorem rustSplit_serviceDid_tail (audience ts : String)
    (haud : ':' ∉ audience.data) (hts : ':' ∉ ts.data) :
    rustSplit ':' (serviceDid ++ ":" ++ audience ++ ":" ++ ts)
      = ["did", "key", "z6MkhaXgBZDvotDkL5257faiztiGiC2QtKLGpbnnEGta2doK",
         audience, ts] := by
  have hdata : (serviceDid ++ ":" ++ audience ++ ":" ++ ts).data
      = "did".data ++ ':' :: ("key".data ++ ':'
        :: ("z6MkhaXgBZDvotDkL5257faiztiGiC2QtKLGpbnnEGta2doK".data ++ ':'
        :: (audience.data ++ ':' :: ts.data))) := by
    have h1 : serviceDid.data
        = "did".data ++ ':' :: "key".data ++ ':'
          :: "z6MkhaXgBZDvotDkL5257faiztiGiC2QtKLGpbnnEGta2doK".data := rfl
    have h2 : (":" : String).data = [':'] := rfl
    simp [String.data_append, h1, h2]
  show (splitCharAux ':' (serviceDid ++ ":" ++ audience ++ ":" ++ ts).data []).map String.mk = _
  rw [hdata]
  rw [splitString_cons ':' (by decide)]
  rw [splitString_cons ':' (by decide)]
  rw [splitString_cons ':' (by decide)]
  rw [splitString_cons ':' haud]
  rw [splitCharAux_of_not_mem ':' hts]
  rfl

/-- The token string built by `issue_token`, reassociated around the embedded
token id. -/
theorem issue_token_string (db : UcanDb) (user_id : Int) (audience : String)
    (caps : List BioCapability) (now : Int) :
    (issue_token db user_id audience caps now).1
      = "ucan:demo:" ++ uuid db.nextUuid ++ ":"
        ++ (serviceDid ++ ":" ++ audience ++ ":" ++ toString now) := by
  simp [issue_token, String.append_assoc]

/-- The row appended by `issue_token`. -/
theorem issue_token_rows (db : UcanDb) (user_id : Int) (audience : String)
    (caps : List BioCapability) (now : Int) :
    ((issue_token db user_id audience caps now).2).rows
      = db.rows ++
        [{ id := uuid (db.nextUuid + 1),
           user_id := user_id,
           token := (issue_token db user_id audience caps now).1,
           audience_did := audience,
           issued_at := now,
           expires_at := now + 24 * 3600,
           revoked := false,
           revoked_at := none,
           delegated_from := none }] := rfl

/-- The result shape of a successful `delegate_capability` call. -/
theorem delegate_capability_ok {db : UcanDb} {user_id : Int}
    {from_token to_did : String} {caps : List BioCapability} {now : Int}
    {token : String} {db' : UcanDb}
    (h : delegate_capability db user_id from_token to_did caps now
      = .ok (token, db')) :
    token = "ucan:demo:" ++ uuid db.nextUuid ++ ":" ++ "delegated" ++ ":"
      ++ to_did ++ ":" ++ toString now
    ∧ db'.rows = db.rows ++
        [{ id := uuid (db.nextUuid + 1),
           user_id := user_id,
           token := token,
           audience_did := to_did,
           issued_at := now,
           expires_at := now + 24 * 3600,
           revoked := false,
           revoked_at := none,
           delegated_from := some ((rustSplit ':' from_token).getD 3 "unknown") }] := by
  unfold delegate_capability at h
  cases hv : verify_token from_token with
  | error e => rw [hv] at h; exact absurd h (by simp)
  | ok caps' =>
    rw [hv] at h
    simp only [Except.ok.injEq, Prod.mk.injEq] at h
    obtain ⟨htok, hdb⟩ := h
    subst hdb
    exact ⟨htok.symm, by rw [← htok]⟩

/-- Reassociation of the four-field token format around its third colon. -/
theorem token_reassoc (a b c d : String) :
    "ucan:demo:" ++ a ++ ":" ++ b ++ ":" ++ c ++ ":" ++ d
      = "ucan:demo:" ++ a ++ ":" ++ (b ++ ":" ++ c ++ ":" ++ d) := by
  simp [String.append_assoc]

namespace UcanSpec

/-- Every step of the spec-modelled service either appends one fresh
unrevoked row (bumping the supply counter), or maps the revocation marker
over the rows (leaving the counter unchanged). -/
theorem step_shape {s s' : SpecState} (h : Step s s') :
    (∃ row, s'.rows = s.rows ++ [row] ∧ row.token_id = uuid s.fresh
      ∧ s'.fresh = s.fresh + 1)
    ∨ (∃ tid now, s'.rows = s.rows.map (fun r =>
        if r.token_id == tid then
          { r with revoked := true, revoked_at := some now }
        else r) ∧ s'.fresh = s.fresh) := by
  cases h with
  | issue user_id audience capabilities ttl now =>
    exact Or.inl ⟨_, rfl, rfl, rfl⟩
  | delegate delegator parent_token audience capabilities now token s2 h =>
    unfold delegate at h
    cases hd : decodeTokenId parent_token with
    | none => rw [hd] at h; exact absurd h (by simp)
    | some ptid =>
      rw [hd] at h
      dsimp only at h
      simp only [Except.ok.injEq, Prod.mk.injEq] at h
      obtain ⟨-, hdb⟩ := h
      subst hdb
      exact Or.inl ⟨_, rfl, rfl, rfl⟩
  | revoke requester token now s2 h =>
    unfold revoke at h
    cases hd : decodeTokenId token with
    | none => rw [hd] at h; exact absurd h (by simp)
    | some tid =>
      rw [hd] at h
      dsimp only at h
      cases hfind : s.rows.find? (fun r => r.token_id == tid && r.owner == requester) with
      | none => rw [hfind] at h; exact absurd h (by simp)
      | some r0 =>
        rw [hfind] at h
        dsimp only at h
        simp only [Except.ok.injEq] at h
        subst h
        exact Or.inr ⟨tid, now, rfl, rfl⟩

/-- The revocation marker preserves a row's token id and owner, and never
clears the revoked flag. -/
theorem revmark_facts (tid : String) (now : Int) (r : SpecRow) :
    ((if r.token_id == tid then
        { r with revoked := true, revoked_at := some now }
      else r) : SpecRow).token_id = r.token_id
    ∧ ((if r.token_id == tid then
        { r with revoked := true, revoked_at := some now }
      else r) : SpecRow).owner = r.owner
    ∧ (r.revoked = true → ((if r.token_id == tid then
        { r with revoked := true, revoked_at := some now }
      else r) : SpecRow).revoked = true) := by
  by_cases hb : r.token_id == tid <;> simp [hb]

/-- A single service step preserves the persistent facts about a revoked
token id. -/
theorem step_preserves_revoked {s s' : SpecState} {tid : String} {owner : Int}
    (h : Step s s') (hf : RevokedFacts s tid owner) : RevokedFacts s' tid owner := by
  obtain ⟨⟨k, hk, htid⟩, ⟨r0, hr0, hid0, hown0⟩, hall⟩ := hf
  rcases step_shape h with ⟨row, hrows, hrowid, hfresh⟩ | ⟨tid', now', hrows, hfresh⟩
  · refine ⟨⟨k, by omega, htid⟩, ⟨r0, ?_, hid0, hown0⟩, ?_⟩
    · rw [hrows]; exact List.mem_append_left _ hr0
    · intro r hr hrid
      rw [hrows] at hr
      rcases List.mem_append.mp hr with hr | hr
      · exact hall r hr hrid
      · exfalso
        rw [List.mem_singleton] at hr
        subst hr
        rw [hrowid] at hrid
        exact absurd (uuid_injective (hrid.trans htid)) (by omega)
  · refine ⟨⟨k, by omega, htid⟩, ?_, ?_⟩
    · refine ⟨(if r0.token_id == tid' then
          { r0 with revoked := true, revoked_at := some now' }
        else r0), ?_, ?_, ?_⟩
      · rw [hrows]; exact List.mem_map_of_mem _ hr0
      · rw [(revmark_facts tid' now' r0).1, hid0]
      · rw [(revmark_facts tid' now' r0).2.1, hown0]
    · intro r hr hrid
      rw [hrows] at hr
      obtain ⟨rb, hrb, hfb⟩ := List.mem_map.mp hr
      have hidb : rb.token_id = tid := by
        rw [← hrid, ← hfb, (revmark_facts tid' now' rb).1]
      rw [← hfb]
      exact (revmark_facts tid' now' rb).2.2 (hall rb hrb hidb)

/-- Reachability preserves the persistent facts about a revoked token id. -/
theorem reach_preserves_revoked {s s' : SpecState} {tid : String} {owner : Int}
    (h : Reach s s') (hf : RevokedFacts s tid owner) : RevokedFacts s' tid owner := by
  induction h with
  | refl => exact hf
  | tail _ hstep ih => exact step_preserves_revoked hstep ih

/-- A successful `revoke` establishes the persistent revocation facts for
the decoded token id, provided the state is well-formed. -/
theorem revoke_ok_facts {s : SpecState} {requester : Int} {token : String}
    {now : Int} {s' : SpecState} (hwf : WF s)
    (h : revoke s requester token now = .ok s') :
    ∃ tid, decodeTokenId token = some tid ∧ RevokedFacts s' tid requester := by
  unfold revoke at h
  cases hd : decodeTokenId token with
  | none => rw [hd] at h; exact absurd h (by simp)
  | some tid =>
    rw [hd] at h
    dsimp only at h
    cases hfind : s.rows.find? (fun r => r.token_id == tid && r.owner == requester) with
    | none => rw [hfind] at h; exact absurd h (by simp)
    | some r0 =>
      rw [hfind] at h
      dsimp only at h
      simp only [Except.ok.injEq] at h
      subst h
      have hmem0 := List.mem_of_find?_eq_some hfind
      have hpred := List.find?_some hfind
      simp only [Bool.and_eq_true, beq_iff_eq] at hpred
      obtain ⟨hid0, hown0⟩ := hpred
      obtain ⟨k, hk, hkid⟩ := hwf r0 hmem0
      refine ⟨tid, rfl, ⟨k, hk, by rw [← hid0, hkid]⟩, ?_, ?_⟩
      · refine ⟨(if r0.token_id == tid then
            { r0 with revoked := true, revoked_at := some now }
          else r0), List.mem_map_of_mem _ hmem0, ?_, ?_⟩
        · rw [(revmark_facts tid now r0).1, hid0]
        · rw [(revmark_facts tid now r0).2.1, hown0]
      · intro r hr hrid
        obtain ⟨rb, hrb, hfb⟩ := List.mem_map.mp hr
        have hidb : rb.token_id = tid := by
          rw [← hrid, ← hfb, (revmark_facts tid now rb).1]
        rw [← hfb, if_pos (by simp [hidb])]

/-- `revoke` succeeds whenever some row with the decoded token id is owned by
the requester (in particular, revoking an already-revoked token is not an
error). -/
theorem revoke_ok_of_owned {s : SpecState} {requester : Int} {token : String}
    {tid : String} (now : Int) (hd : decodeTokenId token = some tid)
    (hown : ∃ r ∈ s.rows, r.token_id = tid ∧ r.owner = requester) :
    ∃ s', revoke s requester token now = .ok s' := by
  unfold revoke
  rw [hd]
  dsimp only
  obtain ⟨r, hr, hid, how⟩ := hown
  have hsome : (s.rows.find? (fun r => r.token_id == tid && r.owner == requester)).isSome :=
    List.find?_isSome.mpr ⟨r, hr, by simp [hid, how]⟩
  cases hfind : s.rows.find? (fun r => r.token_id == tid && r.owner == requester) with
  | none => rw [hfind] at hsome; simp at hsome
  | some r0 => exact ⟨_, rfl⟩

/-- `validate_token` answers `Invalid("revoked")` in any state satisfying the
persistent revocation facts, whatever the current time. -/
theorem validate_revoked {s : SpecState} {token : String} {tid : String}
    {owner : Int} (now : Int) (hd : decodeTokenId token = some tid)
    (hf : RevokedFacts s tid owner) :
    validate_token s token now = .invalid "revoked" := by
  unfold validate_token
  rw [hd]
  dsimp only
  obtain ⟨-, ⟨r, hr, hid, -⟩, hall⟩ := hf
  have hsome : (s.rows.find? (fun r' => r'.token_id == tid)).isSome :=
    List.find?_isSome.mpr ⟨r, hr, by simp [hid]⟩
  cases hfind : s.rows.find? (fun r' => r'.token_id == tid) with
  | none => rw [hfind] at hsome; simp at hsome
  | some r2 =>
    have hid2 : r2.token_id = tid := by
      have := List.find?_some hfind
      simpa [beq_iff_eq] using this
    have hmem2 := List.mem_of_find?_eq_some hfind
    dsimp only
    rw [if_pos (hall r2 hmem2 hid2)]

/-- Claim C1: after `revoke` succeeds on a token, every subsequent validation
of that token string — in any state reachable by further service
operations, and at every current time, in particular while `expires_at` has
not passed — reports `Invalid("revoked")`; and revoking the same token id
again by the same owner is not an error. -/
theorem revocation_is_terminal (s : SpecState) (requester : Int)
    (token : String) (rnow : Int) (s' s'' : SpecState) (hwf : WF s)
    (hrev : revoke s requester token rnow = .ok s') (hreach : Reach s' s'')
    (now now' : Int) :
    validate_token s'' token now = .invalid "revoked"
    ∧ ∃ s₃, revoke s'' requester token now' = .ok s₃ := by
  obtain ⟨tid, hd, hfacts⟩ := revoke_ok_facts hwf hrev
  have hfacts2 := reach_preserves_revoked hreach hfacts
  exact ⟨validate_revoked now hd hfacts2, revoke_ok_of_owned now' hd hfacts2.2.1⟩

/-- Claim C1 witness: a concrete revocation at time 5 of a token expiring at
86400; validation at time 10 (before expiry) answers `revoked`, and a second
revocation succeeds. -/
theorem revocation_is_terminal_witness :
    validate_token specS1 specTok 10 = .invalid "revoked"
    ∧ ∃ s₃, revoke specS1 1 specTok 20 = .ok s₃ :=
  revocation_is_terminal specS0 1 specTok 5 specS1 specS1
    (by
      intro r hr
      rw [show specS0.rows = [specRow0] from rfl, List.mem_singleton] at hr
      subst hr
      exact ⟨0, Nat.zero_lt_one, rfl⟩)
    rfl Relation.ReflTransGen.refl 10 20

/-- Claim C2 counterexample: a token that is revoked *and* past its stored
expiry is reported `Invalid("revoked")`, not `Invalid("expired")`, although
the current time is past `expires_at` — the revocation check takes
precedence. -/
theorem expiry_reason_counterexample :
    specRowRevokedExpired.expires_at < 100
    ∧ decodeTokenId specTok = some specRowRevokedExpired.token_id
    ∧ specSRevokedExpired.rows.find?
        (fun r => r.token_id == specRowRevokedExpired.token_id)
      = some specRowRevokedExpired
    ∧ validate_token specSRevokedExpired specTok 100 ≠ .invalid "expired"
    ∧ validate_token specSRevokedExpired specTok 100 = .invalid "revoked" := by
  decide

/-- Claim C2 (amended): for every token that decodes and whose stored row is
not revoked, validation reports `Invalid("expired")` exactly when the
current time is past the *stored* `expires_at`; and the verdict depends only
on the decoded token id, not on any timestamp embedded in the token
string. -/
theorem stored_expiry_decides (s : SpecState) (token : String) (now : Int)
    (tid : String) (r : SpecRow) (hd : decodeTokenId token = some tid)
    (hfind : s.rows.find? (fun row => row.token_id == tid) = some r)
    (hnotrev : r.revoked = false) :
    (validate_token s token now = .invalid "expired" ↔ r.expires_at < now)
    ∧ ∀ token', decodeTokenId token' = some tid →
        validate_token s token' now = validate_token s token now := by
  constructor
  · unfold validate_token
    rw [hd]
    dsimp only
    rw [hfind]
    dsimp only
    rw [if_neg (by simp [hnotrev])]
    by_cases hlt : r.expires_at < now
    · simp [hlt]
    · simp [hlt]
  · intro token' hd'
    unfold validate_token
    rw [hd, hd']

/-- Claim C2 witness: an unrevoked token whose stored expiry 50 has passed at
time 100 is reported expired. -/
theorem stored_expiry_decides_witness :
    validate_token specSExpired specTok 100 = .invalid "expired" :=
  (stored_expiry_decides specSExpired specTok 100 (uuid 0) specRowExpired
    (by decide) (by decide) (by decide)).1.mpr (by decide)

/-- Claim C3: a token string that fails to decode yields a normal `Invalid`
result value — `validate_token` is total, so ordinary invalidity never
raises. -/
theorem malformed_token_invalid (s : SpecState) (token : String) (now : Int)
    (h : decodeTokenId token = none) :
    validate_token s token now = .invalid "malformed token" := by
  unfold validate_token
  rw [h]

/-- Claim C3 witness: `validate("not-a-token")` returns `Invalid`. -/
theorem malformed_token_invalid_witness :
    validate_token specS0 "not-a-token" 0 = .invalid "malformed token" :=
  malformed_token_invalid specS0 "not-a-token" 0 (by decide)

end UcanSpec

/-- Claim C4 counterexample: two `issue_token` calls identical except for
their capability lists return the same token string, so the returned token
does not encode the capability list passed by the caller. -/
theorem token_ignores_capabilities_counterexample :
    (issue_token db0 1 "did:bio:alice"
        [{ resource := BioResource.Dataset "d1", action := BioAction.Read }] 0).1
      = (issue_token db0 1 "did:bio:alice" [] 0).1
    ∧ ([{ resource := BioResource.Dataset "d1", action := BioAction.Read }]
        : List BioCapability) ≠ [] :=
  ⟨rfl, by decide⟩

/-- Claim C4 (amended): the token string returned by `issue_token` encodes a
fresh token id, the service's issuer identity, the audience identity and the
issuance timestamp — its colon-split consists of exactly those fields, so
the capability list is not embedded. -/
theorem issue_token_encoding (db : UcanDb) (user_id : Int) (audience : String)
    (caps : List BioCapability) (now : Int)
    (haud : ':' ∉ audience.data) (hts : ':' ∉ (toString now).data) :
    rustSplit ':' (issue_token db user_id audience caps now).1
      = ["ucan", "demo", uuid db.nextUuid, "did", "key",
         "z6MkhaXgBZDvotDkL5257faiztiGiC2QtKLGpbnnEGta2doK", audience,
         toString now] := by
  rw [issue_token_string, rustSplit_token_prefix _ _ (colon_not_mem_uuid _),
    rustSplit_serviceDid_tail _ _ haud hts]

/-- Claim C4 witness: the concrete decomposition of a freshly issued token. -/
theorem issue_token_encoding_witness :
    rustSplit ':' (issue_token db0 1 "alice" [] 0).1
      = ["ucan", "demo", uuid db0.nextUuid, "did", "key",
         "z6MkhaXgBZDvotDkL5257faiztiGiC2QtKLGpbnnEGta2doK", "alice",
         toString (0 : Int)] :=
  issue_token_encoding db0 1 "alice" [] 0 (by decide) (by decide)

/-- Claim C5: evaluating the code at the failing input.  The parent token
minted by `issue_token` embeds `serviceDid` as its issuer, but
`delegate_capability` stores the parent token's fourth colon segment —
the literal `"did"` — in `delegated_from`, which is not the parent's issuer
identity. -/
theorem delegated_from_at_failing_input :
    (rustSplit ':' exParent).getD 3 "unknown" = "did"
    ∧ exDelegation.toOption.map
        (fun p => p.2.rows.getLast?.map (fun r => r.delegated_from))
      = some (some (some "did"))
    ∧ "did" ≠ serviceDid := by
  decide

/-- Claim C6: for every identity whose pointer rows are owned by user `a`,
an update requested by any `b ≠ a` fails with the authorization error and
leaves the entire state (pointer rows and content store) unchanged, so a
subsequent `get_did` returns the pre-update document. -/
theorem update_did_ownership (s : DidState) (did_id : String)
    (request : DIDUpdateRequest) (a b : Int) (now : Int)
    (howner : ∀ r ∈ s.rows, r.did = did_id → r.user_id = a) (hne : b ≠ a) :
    update_did s did_id request b now
      = (.error (.AuthorizationError "Not authorized to update this DID"), s)
    ∧ get_did (update_did s did_id request b now).2 did_id = get_did s did_id := by
  have hfind : s.rows.find? (fun r => r.did == did_id && r.user_id == b) = none := by
    rw [List.find?_eq_none]
    intro r hr hp
    simp only [Bool.and_eq_true, beq_iff_eq] at hp
    exact hne (hp.2.symm.trans (howner r hr hp.1))
  have h1 : update_did s did_id request b now
      = (.error (.AuthorizationError "Not authorized to update this DID"), s) := by
    unfold update_did
    rw [hfind]
  exact ⟨h1, by rw [h1]⟩

/-- Claim C6 witness: user 2 cannot update the identity owned by user 1. -/
theorem update_did_ownership_witness :
    update_did exDidState "did:bio:u" exUpdateReq 2 7
      = (.error (.AuthorizationError "Not authorized to update this DID"),
          exDidState)
    ∧ get_did (update_did exDidState "did:bio:u" exUpdateReq 2 7).2 "did:bio:u"
      = get_did exDidState "did:bio:u" :=
  update_did_ownership exDidState "did:bio:u" exUpdateReq 1 2 7
    (by
      intro r hr
      rw [show exDidState.rows = [exDidRow] from rfl, List.mem_singleton] at hr
      subst hr
      intro _
      rfl)
    (by decide)

/-- Claim C7: `create_did` generates an identity id of the form
`did:bio:<uuid>` (freshly drawn from the supply) and builds a document with
exactly one verification method, whose id `<id>#keys-1` is the sole entry of
the authentication list, plus exactly one default storage service entry. -/
theorem create_did_document_shape (s : DidState) (request : DIDCreationRequest)
    (user_id : Int) (now : Int) :
    (create_did s request user_id now).1.id = "did:bio:" ++ uuid s.nextUuid
    ∧ (create_did s request user_id now).1.verification_method.map
        (fun m => m.id)
      = [(create_did s request user_id now).1.id ++ "#keys-1"]
    ∧ (create_did s request user_id now).1.verification_method.length = 1
    ∧ (create_did s request user_id now).1.authentication
      = [(create_did s request user_id now).1.id ++ "#keys-1"]
    ∧ (create_did s request user_id now).1.service
      = [{ id := (create_did s request user_id now).1.id ++ "#storage",
           service_type := "IPFSStorage",
           service_endpoint := "https://ipfs.bio-did-seq.example/api",
           description := some "IPFS storage for biological research data" }] :=
  ⟨rfl, rfl, rfl, rfl, rfl⟩

/-- Claim C8: every row persisted by `issue_token`, or by a successful
`delegate_capability`, satisfies `expires_at = issued_at + 86400` — the
24-hour default, the only lifetime the source can produce since the caller
cannot request another — and hence `expires_at > issued_at`. -/
theorem token_lifetime_invariant (db : UcanDb) (user_id : Int)
    (audience : String) (caps : List BioCapability) (now : Int) :
    (∃ r, ((issue_token db user_id audience caps now).2).rows.getLast? = some r
      ∧ r.expires_at = r.issued_at + 86400 ∧ r.issued_at < r.expires_at)
    ∧ ∀ from_token to_did token db',
        delegate_capability db user_id from_token to_did caps now
          = .ok (token, db') →
        ∃ r, db'.rows.getLast? = some r
          ∧ r.expires_at = r.issued_at + 86400 ∧ r.issued_at < r.expires_at := by
  constructor
  · rw [issue_token_rows]
    exact ⟨_, List.getLast?_concat _,
      by show now + 24 * 3600 = now + 86400; norm_num,
      by show now < now + 24 * 3600; omega⟩
  · intro from_token to_did token db' h
    obtain ⟨-, hrows⟩ := delegate_capability_ok h
    rw [hrows]
    exact ⟨_, List.getLast?_concat _,
      by show now + 24 * 3600 = now + 86400; norm_num,
      by show now < now + 24 * 3600; omega⟩

/-- Claim C8 witness: the delegation path evaluated at a concrete input. -/
theorem token_lifetime_invariant_witness :
    ∃ r, exDelegation2Db.rows.getLast? = some r
      ∧ r.expires_at = r.issued_at + 86400 ∧ r.issued_at < r.expires_at :=
  (token_lifetime_invariant db0 1 "did:bio:bob" [] 0).2
    "ucan:demo:a:b:c:0" "did:bio:bob" _ exDelegation2Db rfl

/-- Claim C9: for every token string whose colon-split has at least 6 parts
with prefixes `ucan` and `demo`, `has_capability` answers `true` exactly for
`("bio://dataset/*", "read")` and `("bio://did/*", "read")`, whatever
capabilities were supplied at issuance or delegation. -/
theorem has_capability_fixed (token resource action : String)
    (hlen : ¬ (rustSplit ':' token).length < 6)
    (h0 : (rustSplit ':' token).getD 0 "" = "ucan")
    (h1 : (rustSplit ':' token).getD 1 "" = "demo") :
    has_capability token resource action = .ok true
      ↔ ((resource = "bio://dataset/*" ∧ action = "read")
        ∨ (resource = "bio://did/*" ∧ action = "read")) := by
  have hcond : ¬ ((rustSplit ':' token).length < 6
      ∨ (rustSplit ':' token).getD 0 "" ≠ "ucan"
      ∨ (rustSplit ':' token).getD 1 "" ≠ "demo") := by
    rintro (h | h | h)
    · exact hlen h
    · exact h h0
    · exact h h1
  unfold has_capability verify_token
  rw [if_neg hcond]
  dsimp only
  simp only [List.any_cons, List.any_nil, Bool.or_eq_true, Bool.and_eq_true,
    beq_iff_eq, Except.ok.injEq, Bool.or_false]
  constructor
  · rintro (⟨hr, ha⟩ | ⟨hr, ha⟩)
    · exact Or.inl ⟨hr.symm, ha.symm⟩
    · exact Or.inr ⟨hr.symm, ha.symm⟩
  · rintro (⟨hr, ha⟩ | ⟨hr, ha⟩)
    · exact Or.inl ⟨hr.symm, ha.symm⟩
    · exact Or.inr ⟨hr.symm, ha.symm⟩

/-- Claim C9 witness: a decodable token grants `read` on `bio://did/*`. -/
theorem has_capability_fixed_witness :
    has_capability "ucan:demo:a:b:c:0" "bio://did/*" "read" = .ok true :=
  (has_capability_fixed "ucan:demo:a:b:c:0" "bio://did/*" "read" (by decide)
    (by decide) (by decide)).mpr (Or.inr ⟨rfl, rfl⟩)

/-- Claim C10: each `issue_token` or `delegate_capability` call draws two
distinct fresh uuids — the token id embedded as the third colon segment of
the returned token string, and the persisted row's primary key — so the
embedded id is never the row's key, and `is_token_revoked` finds the
revocation state by the full token string. -/
theorem token_ids_independent (db : UcanDb) (user_id : Int) (audience : String)
    (caps : List BioCapability) (now : Int)
    (hfresh : ∀ r ∈ db.rows,
      r.token ≠ (issue_token db user_id audience caps now).1) :
    (rustSplit ':' (issue_token db user_id audience caps now).1).getD 2 ""
      = uuid db.nextUuid
    ∧ (∃ r, ((issue_token db user_id audience caps now).2).rows.getLast? = some r
        ∧ r.id = uuid (db.nextUuid + 1)
        ∧ r.token = (issue_token db user_id audience caps now).1
        ∧ uuid db.nextUuid ≠ r.id)
    ∧ is_token_revoked (issue_token db user_id audience caps now).2
        (issue_token db user_id audience caps now).1 = .ok false
    ∧ ∀ from_token to_did token db',
        delegate_capability db user_id from_token to_did caps now
          = .ok (token, db') →
        (rustSplit ':' token).getD 2 "" = uuid db.nextUuid
        ∧ ∃ r, db'.rows.getLast? = some r ∧ r.id = uuid (db.nextUuid + 1)
            ∧ uuid db.nextUuid ≠ r.id := by
  have hsplit : rustSplit ':' (issue_token db user_id audience caps now).1
      = "ucan" :: "demo" :: uuid db.nextUuid
        :: rustSplit ':' (serviceDid ++ ":" ++ audience ++ ":" ++ toString now) := by
    rw [issue_token_string, rustSplit_token_prefix _ _ (colon_not_mem_uuid _)]
  refine ⟨?_, ?_, ?_, ?_⟩
  · rw [hsplit]
    rfl
  · rw [issue_token_rows]
    exact ⟨_, List.getLast?_concat _, rfl, rfl, uuid_ne_succ _⟩
  · have hidx : (rustSplit ':' (issue_token db user_id audience caps now).1)[2]?
        = some (uuid db.nextUuid) := by
      rw [hsplit]
      rfl
    have hnone : db.rows.find?
        (fun r => r.token == (issue_token db user_id audience caps now).1)
      = none := by
      rw [List.find?_eq_none]
      intro r hr hp
      rw [beq_iff_eq] at hp
      exact hfresh r hr hp
    unfold is_token_revoked
    rw [hidx]
    dsimp only
    rw [issue_token_rows, List.find?_append, hnone]
    simp [List.find?]
  · intro from_token to_did token db' h
    obtain ⟨htok, hrows⟩ := delegate_capability_ok h
    constructor
    · rw [htok, token_reassoc,
        rustSplit_token_prefix _ _ (colon_not_mem_uuid _)]
      rfl
    · rw [hrows]
      exact ⟨_, List.getLast?_concat _, rfl, uuid_ne_succ _⟩

/-- Claim C10 witness: the issued row against the empty database is looked up
by its token string and is not revoked. -/
theorem token_ids_independent_witness :
    is_token_revoked (issue_token db0 1 "did:bio:alice" [] 0).2
      (issue_token db0 1 "did:bio:alice" [] 0).1 = .ok false :=
  (token_ids_independent db0 1 "did:bio:alice" [] 0
    (by intro r hr; simp [db0] at hr)).2.2.1

end BioDidSeq
